import Mathlib

/-!
Verification of the Shramp NFT mint front-end (`src/src/App.tsx`, final
iteration, lines 482-950) against its natural-language specification.

The TypeScript component is shallowly embedded: pure display helpers become
Lean functions, the stateful handlers become explicit state-passing functions
over an `AppState` record, and every fallible external interaction (wallet
RPC, contract read, transaction submission) is abstracted as an
`Except`-valued oracle parameter, so each code path of the source is a
branch of a total Lean function.
-/

namespace ShrampNft

/-! ## JavaScript number semantics for `progressPercent`

`progressPercent = Math.min(100, Math.round((totalSupply / maxSupply) * 100))`
(App.tsx lines 772-775).  `totalSupply` and `maxSupply` are non-negative
integers fetched from the contract.  JS division of doubles yields NaN for
0/0 and +Infinity for positive/0; `Math.round NaN = NaN`;
`Math.min(100, NaN) = NaN` and `Math.min(100, Infinity) = 100`.
The finite branch is modelled with exact rational arithmetic (the claims at
issue only exercise the non-finite branches, where IEEE semantics are exact).
-/

/-- A JavaScript number restricted to the values arising here: NaN,
+Infinity, or a finite value modelled as an exact rational. -/
inductive JVal where
  | nan : JVal
  | inf : JVal
  | fin : ℚ → JVal
deriving DecidableEq

/-- JS division `a / b` of two non-negative integers (as doubles):
`0/0 = NaN`, `a/0 = +Infinity` for `a > 0`, else exact quotient. -/
def jsDivNat (a b : ℕ) : JVal :=
  if b = 0 then (if a = 0 then .nan else .inf) else .fin ((a : ℚ) / (b : ℚ))

/-- JS multiplication of a number by the constant 100. -/
def jsMul100 : JVal → JVal
  | .nan => .nan
  | .inf => .inf
  | .fin q => .fin (q * 100)

/-- `Math.round`: NaN and Infinity pass through; a finite value rounds
half-up (toward +Infinity), i.e. `⌊q + 1/2⌋`. -/
def jsRound : JVal → JVal
  | .nan => .nan
  | .inf => .inf
  | .fin q => .fin ((⌊q + 1/2⌋ : ℤ) : ℚ)

/-- `Math.min(100, x)`: returns NaN if `x` is NaN, else the minimum. -/
def jsMin100 : JVal → JVal
  | .nan => .nan
  | .inf => .fin 100
  | .fin q => .fin (min 100 q)

/-- App.tsx lines 772-775:
`Math.min(100, Math.round((totalSupply / maxSupply) * 100))`. -/
def progressPercent (totalSupply maxSupply : ℕ) : JVal :=
  jsMin100 (jsRound (jsMul100 (jsDivNat totalSupply maxSupply)))

/-! ## Decimal rendering: `formatMon` (App.tsx lines 758-770)

`formatMon` parses the wei string with `BigInt`, splits it by `10^18`,
renders the remainder with `String(frac).padStart(18, "0").slice(0, 4)` and
concatenates `"whole.frac4"`.  We embed it on the parsed non-negative
integer (the claim's domain is decimal strings of non-negative integers;
the `catch` branch returning `"0"` is outside that domain).
`BigInt(1e18) = 10^18` exactly since `10^18 = 5^18 * 2^18` is representable
as a double. -/

/-- The ASCII character of a decimal digit `d < 10`. -/
def digitChar (d : ℕ) : Char := Char.ofNat (48 + d)

/-- Decimal representation of a natural number, most significant digit
first, no leading zeros (and `['0']` for zero) — the digits produced by
JavaScript's `String(bigint)`. -/
def decDigits (n : ℕ) : List Char :=
  if n < 10 then [digitChar n]
  else decDigits (n / 10) ++ [digitChar (n % 10)]
termination_by n
decreasing_by exact Nat.div_lt_self (by omega) (by omega)

/-- JavaScript `s.padStart(len, c)` on a character list. -/
def padStart (len : ℕ) (c : Char) (s : List Char) : List Char :=
  List.replicate (len - s.length) c ++ s

/-- App.tsx lines 758-770: split the wei amount at `10^18`, left-pad the
fractional part to 18 digits, keep the first 4, and join with `"."`. -/
def formatMon (w : ℕ) : String :=
  let whole := w / 10 ^ 18
  let frac := w % 10 ^ 18
  let fracStr := (padStart 18 '0' (decDigits frac)).take 4
  String.mk (decDigits whole ++ '.' :: fracStr)

/-- Specification-side helper: the exactly-`k`-digit zero-padded decimal
rendering of `n` (its value modulo `10^k`), most significant digit first.
`padDec 4 (frac / 10^14)` is "the first 4 fractional decimal digits,
truncated" demanded by the spec. -/
def padDec : ℕ → ℕ → List Char
  | 0, _ => []
  | k + 1, n => padDec k (n / 10) ++ [digitChar (n % 10)]

theorem padDec_length (k n : ℕ) : (padDec k n).length = k := by
  induction k generalizing n with
  | zero => rfl
  | succ k ih => simp [padDec, ih]

theorem padDec_zero (k : ℕ) : padDec k 0 = List.replicate k '0' := by
  induction k with
  | zero => rfl
  | succ k ih =>
      rw [padDec, Nat.zero_div, Nat.zero_mod, ih, List.replicate_succ']
      rfl

theorem padDec_split (k m n : ℕ) :
    padDec (m + k) n = padDec m (n / 10 ^ k) ++ padDec k (n % 10 ^ k) := by
  induction k generalizing n with
  | zero => simp [padDec]
  | succ k ih =>
      have h1 : n / 10 / 10 ^ k = n / 10 ^ (k + 1) := by
        rw [Nat.div_div_eq_div_mul, ← pow_succ']
      have h2 : n % 10 ^ (k + 1) / 10 = n / 10 % 10 ^ k := by
        rw [pow_succ', Nat.mod_mul_right_div_self]
      have h3 : n % 10 ^ (k + 1) % 10 = n % 10 :=
        Nat.mod_mod_of_dvd n (dvd_pow_self 10 (Nat.succ_ne_zero k))
      show padDec (m + k + 1) n = _
      rw [show m + k + 1 = (m + k) + 1 from rfl]
      rw [padDec, ih (n / 10), h1, ← h2, ← h3, List.append_assoc]
      rfl

theorem padStart_decDigits :
    ∀ k n, n < 10 ^ (k + 1) →
      padStart (k + 1) '0' (decDigits n) = padDec (k + 1) n := by
  intro k
  induction k with
  | zero =>
      intro n hn
      have h10 : n < 10 := by simpa using hn
      rw [decDigits, if_pos h10]
      show List.replicate (1 - 1) '0' ++ [digitChar n] = _
      rw [show padDec 1 n = padDec 0 (n / 10) ++ [digitChar (n % 10)] from rfl]
      simp [padDec, Nat.mod_eq_of_lt h10]
  | succ k ih =>
      intro n hn
      by_cases h10 : n < 10
      · rw [decDigits, if_pos h10]
        show List.replicate (k + 2 - 1) '0' ++ [digitChar n] = _
        rw [show padDec (k + 2) n
              = padDec (k + 1) (n / 10) ++ [digitChar (n % 10)] from rfl]
        rw [Nat.div_eq_of_lt h10, Nat.mod_eq_of_lt h10, padDec_zero,
            show k + 2 - 1 = k + 1 from rfl]
      · rw [decDigits, if_neg h10]
        have hdiv : n / 10 < 10 ^ (k + 1) := by
          rw [Nat.div_lt_iff_lt_mul (by norm_num : 0 < 10)]
          calc n < 10 ^ (k + 1 + 1) := hn
            _ = 10 ^ (k + 1) * 10 := by ring
        have hlen :
            padStart (k + 2) '0' (decDigits (n / 10) ++ [digitChar (n % 10)])
              = padStart (k + 1) '0' (decDigits (n / 10))
                ++ [digitChar (n % 10)] := by
          unfold padStart
          rw [List.length_append, List.length_singleton]
          rw [show k + 2 - ((decDigits (n / 10)).length + 1)
                = k + 1 - (decDigits (n / 10)).length from by omega]
          rw [List.append_assoc]
        rw [hlen, ih (n / 10) hdiv]
        rfl

theorem padDec_take (n : ℕ) :
    (padDec 18 n).take 4 = padDec 4 (n / 10 ^ 14) := by
  have h := padDec_split 14 4 n
  rw [show (4 : ℕ) + 14 = 18 from rfl] at h
  rw [h]
  exact List.take_left' (padDec_length 4 _)

theorem padStart_decDigits18 (n : ℕ) (hn : n < 10 ^ 18) :
    padStart 18 '0' (decDigits n) = padDec 18 n :=
  padStart_decDigits 17 n hn

theorem formatMon_eq (w : ℕ) :
    formatMon w
      = String.mk (decDigits (w / 10 ^ 18)
          ++ '.' :: padDec 4 (w % 10 ^ 18 / 10 ^ 14)) := by
  show String.mk (decDigits (w / 10 ^ 18)
      ++ '.' :: (padStart 18 '0' (decDigits (w % 10 ^ 18))).take 4) = _
  rw [padStart_decDigits18 _ (Nat.mod_lt _ (by norm_num)), padDec_take]

theorem decDigits_lt_ten {n : ℕ} (h : n < 10) : decDigits n = [digitChar n] := by
  rw [decDigits, if_pos h]

/-! ## mintNFT entry validation (App.tsx lines 633-666)

`mintNFT` first checks for the wallet, then computes
`remainingAllowance = Math.max(0, contractMaxPerWallet - userMintedCount)` and
`remainingSupply = Math.max(0, maxSupply - totalSupply)` and runs four guards
in order, each returning early (an `alert` or a `setStatus`) before
`setMinting(true)` and before any provider/contract object is constructed.
`MintGate.proceed` marks the single path that reaches `setMinting(true)` and
the network phase; every other constructor is an early return with the
corresponding user-facing report and no state mutation. -/

inductive MintGate where
  /-- `alert("Install MetaMask")` early return. -/
  | noWallet : MintGate
  /-- `setStatus("Max per wallet reached")` early return. -/
  | maxPerWalletReached : MintGate
  /-- `alert("Quantity must be 1-" + remainingAllowance)` early return. -/
  | quantityAlert : Int → MintGate
  /-- `alert("Only " + remainingSupply + " left in supply")` early return. -/
  | supplyAlert : Int → MintGate
  /-- `alert("You can only mint ... more ...")` early return. -/
  | allowanceAlert : Int → Int → MintGate
  /-- the guards all passed: `setMinting(true)` runs and the transaction
  phase (provider, signer, contract calls) is entered. -/
  | proceed : MintGate
deriving DecidableEq

/-- App.tsx lines 633-666: the validation prefix of `mintNFT`, on the state
values it reads (all JavaScript numbers, here `Int`). -/
def mintNFTGate (hasWallet : Bool)
    (contractMaxPerWallet userMintedCount maxSupply totalSupply
      mintQuantity : Int) : MintGate :=
  if !hasWallet then .noWallet
  else
    let remainingAllowance := max 0 (contractMaxPerWallet - userMintedCount)
    let remainingSupply := max 0 (maxSupply - totalSupply)
    if remainingAllowance ≤ 0 then .maxPerWalletReached
    else if mintQuantity < 1 ∨ mintQuantity > remainingAllowance then
      .quantityAlert remainingAllowance
    else if mintQuantity > remainingSupply then .supplyAlert remainingSupply
    else if userMintedCount + mintQuantity > contractMaxPerWallet then
      .allowanceAlert remainingAllowance userMintedCount
    else .proceed

/-- C2 failing input: with `totalSupply = 0` and `maxSupply = 0` the code
computes `Math.min(100, Math.round((0 / 0) * 100)) = NaN` — not the defined
finite value the spec requires of a guarded zero `maxSupply`. -/
theorem claim_C2_progressPercent_nan_at_zero :
    progressPercent 0 0 = JVal.nan := rfl

/-- C3: for every non-negative integer wei amount `w`, `formatMon w` is the
decimal whole part of `w / 10^18` followed by `"."` and exactly the first 4
fractional decimal digits (`padDec 4 (w % 10^18 / 10^14)`, pure truncation of
the lower-order digits, never rounding); in particular the three spec
examples hold. -/
theorem claim_C3_formatMon_truncates :
    (∀ w : ℕ, formatMon w
        = String.mk (decDigits (w / 10 ^ 18)
            ++ '.' :: padDec 4 (w % 10 ^ 18 / 10 ^ 14)))
      ∧ formatMon 1000000000000000000 = "1.0000"
      ∧ formatMon 1234500000000000000 = "1.2345"
      ∧ formatMon 1234560000000000000 = "1.2345" := by
  refine ⟨formatMon_eq, ?_, ?_, ?_⟩
  · rw [formatMon_eq]
    norm_num
    rw [decDigits_lt_ten (by norm_num)]
    decide
  · rw [formatMon_eq]
    norm_num
    rw [decDigits_lt_ten (by norm_num)]
    decide
  · rw [formatMon_eq]
    norm_num
    rw [decDigits_lt_ten (by norm_num)]
    decide

/-- C4: whenever the wallet is present and the requested quantity lies
outside `[1, min(contractMaxPerWallet - userMintedCount,
maxSupply - totalSupply)]`, the `mintNFT` validation prefix returns an early
report and never reaches `proceed` — the unique path that sets the minting
flag and issues network calls. -/
theorem claim_C4_invalid_quantity_aborts
    (cMPW uM mS tS q : Int)
    (hq : q < 1 ∨ q > min (cMPW - uM) (mS - tS)) :
    mintNFTGate true cMPW uM mS tS q ≠ MintGate.proceed := by
  simp only [mintNFTGate, Bool.not_true]
  split_ifs with h1 h2 h3 h4 h5 <;> simp_all
  omega

/-- The C4 theorem at a concrete invalid input: quantity 3 with allowance 2
and ample supply is rejected before any network call. -/
theorem claim_C4_witness :
    mintNFTGate true 2 0 500 0 3 ≠ MintGate.proceed :=
  claim_C4_invalid_quantity_aborts 2 0 500 0 3 (Or.inr (by decide))

/-! ## Contract-data refresh (App.tsx lines 531-576)

`refreshContractData` returns immediately when `window.ethereum` is absent.
Inside a `try` it builds the provider and contract (`getContract` throws when
`VITE_CONTRACT_ADDRESS` is unset — modelled by `configOk`), awaits the four
primary reads (`totalSupply`, `maxSupply`, `mintPrice`, `maxPerWallet`), and
only then runs the four setters; so a failure of any primary read skips every
setter.  With a connected account it then reads `mintedCount(account)` in a
nested `try`, falling back to `balanceOf(account)` and finally to `0`.  The
outer `catch` only logs — the function never throws to its caller.  Every
external read is an `Except`-valued oracle in `ContractReads`. -/

structure AppState where
  totalSupply : Int
  maxSupply : Int
  mintPriceWei : String
  contractMaxPerWallet : Int
  userMintedCount : Int
deriving DecidableEq

/-- Oracle outcomes for the contract reads a single refresh performs. -/
structure ContractReads where
  totalSupply : Except Unit Int
  maxSupply : Except Unit Int
  mintPrice : Except Unit ℕ
  maxPerWallet : Except Unit Int
  mintedCount : Except Unit Int
  balanceOf : Except Unit Int

/-- App.tsx lines 531-576. `hasWallet` is `window.ethereum` presence,
`configOk` is whether `getContract` succeeds (contract address configured),
`account` the current connected account. -/
def refreshContractData (hasWallet configOk : Bool) (r : ContractReads)
    (account : Option String) (s : AppState) : AppState :=
  if !hasWallet then s
  else if !configOk then s
  else match r.totalSupply with
  | .error _ => s
  | .ok supply => match r.maxSupply with
    | .error _ => s
    | .ok mx => match r.mintPrice with
      | .error _ => s
      | .ok price => match r.maxPerWallet with
        | .error _ => s
        | .ok mpw =>
          let s1 : AppState :=
            { s with totalSupply := supply, maxSupply := min mx 500,
                     mintPriceWei := String.mk (decDigits price),
                     contractMaxPerWallet := mpw }
          match account with
          | none => s1
          | some _ => match r.mintedCount with
            | .ok m => { s1 with userMintedCount := m }
            | .error _ => match r.balanceOf with
              | .ok b => { s1 with userMintedCount := b }
              | .error _ => { s1 with userMintedCount := 0 }

/-- App.tsx lines 742-749: the `accountsChanged` handler replaces the account
with `accounts[0] || null` and schedules a refresh for it.  Returns the new
account and the refreshed state. -/
def handleAccountsChanged (hasWallet configOk : Bool) (r : ContractReads)
    (accounts : List String) (s : AppState) : Option String × AppState :=
  let newAccount := accounts.head?
  (newAccount, refreshContractData hasWallet configOk r newAccount s)

/-- C5: `refreshContractData` never throws (it is a total function of its
oracles), and when the provider is absent, the contract is unconfigured, or
any of the four primary reads fails, the state is returned unchanged — no
snapshot field is mutated. -/
theorem claim_C5_refresh_read_failure_frame
    (hasWallet configOk : Bool) (r : ContractReads) (account : Option String)
    (s : AppState)
    (h : hasWallet = false ∨ configOk = false
        ∨ r.totalSupply = .error () ∨ r.maxSupply = .error ()
        ∨ r.mintPrice = .error () ∨ r.maxPerWallet = .error ()) :
    refreshContractData hasWallet configOk r account s = s := by
  unfold refreshContractData
  rcases h with h | h | h | h | h | h <;>
    · subst_eqs
      repeat' split
      all_goals simp_all

/-- The C5 theorem at a concrete input: a failing `maxSupply` read leaves a
concrete prior state untouched. -/
theorem claim_C5_witness :
    refreshContractData true true
      ⟨.ok 7, .error (), .ok 0, .ok 2, .ok 1, .ok 1⟩ (some "0xabc")
      ⟨3, 500, "0", 2, 1⟩ = ⟨3, 500, "0", 2, 1⟩ :=
  claim_C5_refresh_read_failure_frame true true _ _ _
    (Or.inr (Or.inr (Or.inr (Or.inl rfl))))

/-- C6: when a refresh runs with a connected account and the primary reads
succeed, the resulting `userMintedCount` is the contract's `mintedCount` when
that read succeeds, else the `balanceOf` fallback when that succeeds, else
`0`; in all three cases the refresh completes (the primary snapshot fields
are still updated). -/
theorem claim_C6_userMintedCount_fallback_chain
    (r : ContractReads) (a : String) (s : AppState)
    (t mx mpw : Int) (price : ℕ)
    (h1 : r.totalSupply = .ok t) (h2 : r.maxSupply = .ok mx)
    (h3 : r.mintPrice = .ok price) (h4 : r.maxPerWallet = .ok mpw) :
    (∀ m : Int, r.mintedCount = .ok m →
        (refreshContractData true true r (some a) s).userMintedCount = m)
      ∧ (∀ b : Int, r.mintedCount = .error () → r.balanceOf = .ok b →
        (refreshContractData true true r (some a) s).userMintedCount = b)
      ∧ (r.mintedCount = .error () → r.balanceOf = .error () →
        (refreshContractData true true r (some a) s).userMintedCount = 0)
      ∧ (refreshContractData true true r (some a) s).totalSupply = t := by
  unfold refreshContractData
  rw [h1, h2, h3, h4]
  refine ⟨?_, ?_, ?_, ?_⟩
  · intro m hm; simp [hm]
  · intro b hm hb; simp [hm, hb]
  · intro hm hb; simp [hm, hb]
  · cases hmc : r.mintedCount with
    | ok m => simp [hmc]
    | error e => cases hb : r.balanceOf <;> simp [hmc, hb]

/-- The C6 theorem at a concrete input: with `mintedCount` unsupported and
`balanceOf = 5`, the refreshed `userMintedCount` is 5. -/
theorem claim_C6_witness :
    (refreshContractData true true
      ⟨.ok 7, .ok 600, .ok 0, .ok 2, .error (), .ok 5⟩ (some "0xabc")
      ⟨0, 500, "0", 2, 0⟩).userMintedCount = 5 :=
  (claim_C6_userMintedCount_fallback_chain _ "0xabc" _ 7 600 2 0
    rfl rfl rfl rfl).2.1 5 rfl rfl

/-- C10: a refresh running with `account = null` never writes
`userMintedCount` — the previously fetched value is retained — and in
particular the refresh triggered by an `accountsChanged` notification that
leaves no account (empty accounts list) retains the prior account's minted
count. -/
theorem claim_C10_null_account_keeps_stale_mintedCount :
    (∀ (hasWallet configOk : Bool) (r : ContractReads) (s : AppState),
        (refreshContractData hasWallet configOk r none s).userMintedCount
          = s.userMintedCount)
      ∧ (∀ (hasWallet configOk : Bool) (r : ContractReads) (s : AppState),
        ((handleAccountsChanged hasWallet configOk r [] s).1 = none)
          ∧ (handleAccountsChanged hasWallet configOk r [] s).2.userMintedCount
              = s.userMintedCount) := by
  have key : ∀ (hasWallet configOk : Bool) (r : ContractReads) (s : AppState),
      (refreshContractData hasWallet configOk r none s).userMintedCount
        = s.userMintedCount := by
    intro hasWallet configOk r s
    unfold refreshContractData
    repeat' split
    all_goals simp_all
  exact ⟨key, fun hasWallet configOk r s =>
    ⟨rfl, key hasWallet configOk r s⟩⟩

/-! ## Case-insensitive substring matching

The source tests error messages with case-insensitive regexes whose patterns
are plain alternations of literal substrings
(`/Unrecognized chain ID/i`, `/missing revert data|CALL_EXCEPTION|estimateGas/i`,
`/rate limit|rate limited|Request is being rate limited/i`); `RegExp.test`
succeeds iff some literal occurs as a substring, ignoring case. -/

/-- Does `needle` occur as a contiguous run inside `hay`? -/
def subMatch (needle : List Char) : List Char → Bool
  | [] => needle.isEmpty
  | c :: rest => needle.isPrefixOf (c :: rest) || subMatch needle rest

/-- ASCII lower-casing of one character (the patterns and messages at issue
are ASCII, where the regex `i` flag folds exactly this way). -/
def lowerChar (c : Char) : Char :=
  if 65 ≤ c.toNat ∧ c.toNat ≤ 90 then Char.ofNat (c.toNat + 32) else c

/-- Case-insensitive substring test, the semantics of
`/lit/i.test(hay)` for a literal pattern. -/
def icontains (hay needle : String) : Bool :=
  subMatch (needle.data.map lowerChar) (hay.data.map lowerChar)

/-! ## Network guarantor (App.tsx lines 578-631)

`ensureMonadNetwork` reads `eth_chainId`; when it differs from `"0x279F"` it
requests `wallet_switchEthereumChain`, and if that fails with code 4902 or a
message matching `/Unrecognized chain ID/i` it requests
`wallet_addEthereumChain` with the Monad Testnet definition; any other
switch failure is rethrown (the outer catch logs and rethrows).
`connectWallet` runs the guarantor before `eth_requestAccounts`; any thrown
error lands in its catch, which sets status `"Failed to connect wallet"`
without requesting accounts. -/

/-- The error object a failed `wallet_switchEthereumChain` rejects with. -/
structure SwitchErr where
  code : Option Int
  message : Option String

/-- App.tsx lines 590-594:
`err?.code === 4902 || (typeof err?.message === "string" && /Unrecognized chain ID/i.test(err.message))`. -/
def unrecognizedChain (e : SwitchErr) : Bool :=
  e.code = some 4902
    || (match e.message with
        | some m => icontains m "Unrecognized chain ID"
        | none => false)

/-- The network definition passed to `wallet_addEthereumChain`
(App.tsx lines 595-606; the RPC URL is the default used when
`VITE_MONAD_RPC_URL` is unset). -/
structure AddChainParams where
  chainId : String
  chainName : String
  currencyName : String
  currencySymbol : String
  currencyDecimals : ℕ
  rpcUrls : List String
  blockExplorerUrls : List String
deriving DecidableEq

def targetChainIdHex : String := "0x279F"

def monadChainParams : AddChainParams :=
  { chainId := targetChainIdHex
    chainName := "Monad Testnet"
    currencyName := "MON"
    currencySymbol := "MON"
    currencyDecimals := 18
    rpcUrls := ["https://testnet-rpc.monad.xyz"]
    blockExplorerUrls := ["https://testnet.monadexplorer.com"] }

/-- A wallet RPC request issued by the connect flow, in issue order. -/
inductive WalletReq where
  | chainId : WalletReq
  | switchChain : String → WalletReq
  | addChain : AddChainParams → WalletReq
  | requestAccounts : WalletReq
  | refresh : WalletReq
deriving DecidableEq

/-- Oracle outcomes for the wallet requests the connect flow performs. -/
structure WalletEnv where
  currentChainId : Except Unit String
  switchResult : Except SwitchErr Unit
  addResult : Except Unit Unit
  accountsResult : Except Unit (List String)

/-- App.tsx lines 578-616: the requests `ensureMonadNetwork` issues, in
order, and whether it returns normally or throws to its caller. -/
def ensureMonadNetwork (env : WalletEnv) :
    List WalletReq × Except Unit Unit :=
  match env.currentChainId with
  | .error _ => ([.chainId], .error ())
  | .ok current =>
    if current = targetChainIdHex then ([.chainId], .ok ())
    else match env.switchResult with
      | .ok _ => ([.chainId, .switchChain targetChainIdHex], .ok ())
      | .error e =>
        if unrecognizedChain e then
          match env.addResult with
          | .ok _ =>
              ([.chainId, .switchChain targetChainIdHex,
                .addChain monadChainParams], .ok ())
          | .error _ =>
              ([.chainId, .switchChain targetChainIdHex,
                .addChain monadChainParams], .error ())
        else ([.chainId, .switchChain targetChainIdHex], .error ())

/-- The observable outcome of `connectWallet`. -/
structure ConnectResult where
  requests : List WalletReq
  account : Option String
  status : Option String
deriving DecidableEq

/-- App.tsx lines 618-631: `connectWallet` runs the network guarantor, then
`eth_requestAccounts`, sets the account and status, and refreshes; any error
in that chain is caught and sets status `"Failed to connect wallet"`. -/
def connectWallet (hasWallet : Bool) (env : WalletEnv) : ConnectResult :=
  if !hasWallet then ⟨[], none, none⟩
  else
    match ensureMonadNetwork env with
    | (reqs, .error _) => ⟨reqs, none, some "Failed to connect wallet"⟩
    | (reqs, .ok _) =>
      match env.accountsResult with
      | .error _ =>
          ⟨reqs ++ [.requestAccounts], none, some "Failed to connect wallet"⟩
      | .ok accounts =>
          ⟨reqs ++ [.requestAccounts, .refresh], accounts.head?,
            some "Wallet connected"⟩

/-- C7: when the wallet's chain differs from the target, the guarantor issues
the switch request right after the chain-id read; a switch failure with code
4902 or an "Unrecognized chain ID" message triggers the add-chain request
with the configured Monad definition; any other switch failure propagates to
`connectWallet`, which fails without ever requesting accounts; and whenever
the guarantor succeeds, `connectWallet` requests accounts only after the
guarantor's requests. -/
theorem claim_C7_network_check_order
    (env : WalletEnv) (c : String)
    (hcur : env.currentChainId = .ok c) (hne : c ≠ targetChainIdHex) :
    (ensureMonadNetwork env).1.take 2
        = [.chainId, .switchChain targetChainIdHex]
      ∧ (∀ e : SwitchErr, env.switchResult = .error e →
          unrecognizedChain e = true →
          WalletReq.addChain monadChainParams ∈ (ensureMonadNetwork env).1)
      ∧ (∀ e : SwitchErr, env.switchResult = .error e →
          unrecognizedChain e = false →
          (ensureMonadNetwork env).2 = .error ()
            ∧ connectWallet true env
                = ⟨[.chainId, .switchChain targetChainIdHex], none,
                    some "Failed to connect wallet"⟩)
      ∧ ((ensureMonadNetwork env).2 = .ok () →
          (connectWallet true env).requests
            = (ensureMonadNetwork env).1
                ++ WalletReq.requestAccounts
                  :: (match env.accountsResult with
                      | .ok _ => [WalletReq.refresh]
                      | .error _ => [])) := by
  refine ⟨?_, ?_, ?_, ?_⟩
  · unfold ensureMonadNetwork
    rw [hcur]
    simp only [if_neg hne]
    cases hsw : env.switchResult with
    | ok u => rfl
    | error e =>
        by_cases hu : unrecognizedChain e = true
        · simp only [hu, if_pos]
          cases env.addResult <;> rfl
        · simp only [if_neg hu]
          rfl
  · intro e hsw hu
    unfold ensureMonadNetwork
    cases ha : env.addResult <;> simp [hcur, if_neg hne, hsw, hu, ha]
  · intro e hsw hu
    unfold ensureMonadNetwork connectWallet
    rw [hcur]
    simp only [if_neg hne, hsw, hu]
    unfold ensureMonadNetwork
    rw [hcur]
    simp only [if_neg hne, hsw, hu]
    simp
  · intro hok
    unfold connectWallet
    simp only [Bool.not_true]
    cases hens : ensureMonadNetwork env with
    | mk reqs res =>
        cases res with
        | error u => rw [hens] at hok; simp at hok
        | ok u =>
            cases hacc : env.accountsResult <;> simp [hacc]

/-- The C7 theorem at a concrete environment: chain mismatch, switch failing
with code 4902, add-chain succeeding. -/
theorem claim_C7_witness :
    (ensureMonadNetwork
        ⟨.ok "0x1", .error ⟨some 4902, none⟩, .ok (), .ok ["0xabc"]⟩).1.take 2
      = [.chainId, .switchChain targetChainIdHex] :=
  (claim_C7_network_check_order
    ⟨.ok "0x1", .error ⟨some 4902, none⟩, .ok (), .ok ["0xabc"]⟩ "0x1"
    rfl (by decide)).1

/-! ## Pre-flight simulation (App.tsx lines 678-695)

After computing the total price, `mintNFT` dry-runs the mint
(`staticCall` + `estimateGas`) inside a `try`.  On failure it derives
`msg = shortMessage || message || "Simulation failed"` (JavaScript `||`,
so an empty string also falls through), tests
`/missing revert data|CALL_EXCEPTION|estimateGas/i`, and either logs a
warning, sets the advisory status and falls through to `attemptMint(0)`,
or sets `msg` as status and rethrows, which aborts the mint without any
submission. -/

/-- JavaScript `a || b` for an optional string: `undefined` and `""` are
falsy. -/
def jsOrStr (a : Option String) (b : String) : String :=
  match a with
  | some s => if s = "" then b else s
  | none => b

/-- The error object a failed simulation rejects with. -/
structure SimErr where
  shortMessage : Option String
  message : Option String

/-- App.tsx line 684: `se?.shortMessage || se?.message || "Simulation failed"`. -/
def simMsg (e : SimErr) : String :=
  jsOrStr e.shortMessage (jsOrStr e.message "Simulation failed")

/-- App.tsx line 686: `/missing revert data|CALL_EXCEPTION|estimateGas/i.test(msg)`. -/
def benignSimFailure (msg : String) : Bool :=
  icontains msg "missing revert data" || icontains msg "CALL_EXCEPTION"
    || icontains msg "estimateGas"

/-- The observable outcome of the simulation `try`/`catch`: the statuses it
sets (in order), whether it logged the warning, and whether control falls
through to the submission call (`attemptMint(0)`); `proceeds = false` means
the caught simulation error was rethrown, aborting the mint before any
submission. -/
structure SimPhase where
  statuses : List String
  warned : Bool
  proceeds : Bool
deriving DecidableEq

/-- App.tsx lines 678-695. -/
def simulationPhase (simResult : Except SimErr Unit) : SimPhase :=
  match simResult with
  | .ok _ => ⟨[], false, true⟩
  | .error se =>
    let msg := simMsg se
    if benignSimFailure msg then
      ⟨["Simulation unavailable, submitting transaction..."], true, true⟩
    else ⟨[msg], false, false⟩

/-- C8: a simulation failure matching the benign pattern is logged, sets the
advisory status, and still proceeds to submission; a non-matching failure
sets the failure's short message (`shortMessage || message || default`) as
status and aborts without submitting. -/
theorem claim_C8_simulation_benign_pattern (se : SimErr) :
    (benignSimFailure (simMsg se) = true →
        simulationPhase (.error se)
          = ⟨["Simulation unavailable, submitting transaction..."],
              true, true⟩)
      ∧ (benignSimFailure (simMsg se) = false →
        simulationPhase (.error se) = ⟨[simMsg se], false, false⟩) := by
  constructor
  · intro hb
    unfold simulationPhase
    simp only [hb, if_pos]
  · intro hb
    unfold simulationPhase
    simp only [hb]
    rfl

/-- The C8 theorem at a concrete benign failure (a "CALL_EXCEPTION" short
message): the orchestrator proceeds to submit. -/
theorem claim_C8_witness :
    simulationPhase (.error ⟨some "execution reverted CALL_EXCEPTION", none⟩)
      = ⟨["Simulation unavailable, submitting transaction..."], true, true⟩ :=
  (claim_C8_simulation_benign_pattern
    ⟨some "execution reverted CALL_EXCEPTION", none⟩).1 (by decide)

/-! ## Submission retry loop (App.tsx lines 697-726)

`attemptMint(attempt)` submits the transaction; on an error with
`code === -32603` and a rate-limit message it waits `500 * 2^attempt` ms and
recurses with `attempt + 1`, but only while `attempt < 3`; otherwise the
error is rethrown and the surrounding catch marks the mint failed.
`attemptMint(0)` is the entry call. -/

/-- Classification of one submission attempt's outcome, as the `catch`
distinguishes it: confirmed, a recognized rate-limit RPC error
(`code === -32603` plus `/rate limit|rate limited|Request is being rate limited/i`),
or any other error. -/
inductive SubmitOutcome where
  | confirmed : SubmitOutcome
  | rateLimitErr : SubmitOutcome
  | otherErr : SubmitOutcome
deriving DecidableEq

/-- App.tsx lines 697-726: run `attemptMint` from index `attempt` against an
oracle giving each attempt's outcome.  Returns the number of submissions
actually issued, the backoff delays (ms) awaited in order, and whether the
operation settled (`true`) or ended failed with the error rethrown
(`false`). -/
def attemptMint (outcome : ℕ → SubmitOutcome) (attempt : ℕ) :
    ℕ × List ℕ × Bool :=
  match outcome attempt with
  | .confirmed => (1, [], true)
  | .otherErr => (1, [], false)
  | .rateLimitErr =>
    if h : attempt < 3 then
      let rest := attemptMint outcome (attempt + 1)
      (rest.1 + 1, 500 * 2 ^ attempt :: rest.2.1, rest.2.2)
    else (1, [], false)
termination_by 4 - attempt
decreasing_by omega

theorem attemptMint_all_rate_limited :
    attemptMint (fun _ => SubmitOutcome.rateLimitErr) 0
      = (4, [500, 1000, 2000], false) := by
  rw [attemptMint, attemptMint, attemptMint, attemptMint]
  norm_num

/-- C1 counterexample: with every submission rate-limited, the code issues 4
submission attempts — the 4th attempt IS made — and waits 3 backoffs
(500 ms, 1000 ms, 2000 ms), not 2, before ending failed. -/
theorem claim_C1_counterexample :
    (attemptMint (fun _ => SubmitOutcome.rateLimitErr) 0).1 = 4
      ∧ (attemptMint (fun _ => SubmitOutcome.rateLimitErr) 0).2.1
          = [500, 1000, 2000]
      ∧ ¬ (attemptMint (fun _ => SubmitOutcome.rateLimitErr) 0).1 ≤ 3 := by
  rw [attemptMint_all_rate_limited]
  norm_num

/-- C1 amended: if submission fails with a rate-limit RPC error on every
attempt, the `attempt < 3` gate admits retries after attempts 0, 1 and 2, so
a 4th submission attempt (index 3) is made and the operation ends failed
after exactly 3 backoff waits of 500 ms, 1000 ms and 2000 ms (the delay
before retry `i` being `500 ms * 2^i`), with 4 total submission attempts. -/
theorem claim_C1_rate_limit_retry_bound :
    attemptMint (fun _ => SubmitOutcome.rateLimitErr) 0
      = (4, [500, 1000, 2000], false) :=
  attemptMint_all_rate_limited

/-! ## Quantity editing (App.tsx lines 823-870)

Three handlers write `mintQuantity` (all JavaScript numbers, here `Int`;
`contractMaxPerWallet` and `userMintedCount` are fixed during editing):
- decrement button: `setMintQuantity(Math.max(1, mintQuantity - 1))`;
- increment button:
  `setMintQuantity(Math.min(contractMaxPerWallet, Math.min(contractMaxPerWallet - userMintedCount, mintQuantity + 1)))`;
- text input: `const val = parseInt(e.target.value) || 1` (`NaN` and `0` are
  falsy, so both become 1), then
  `setMintQuantity(Math.min(maxAllowed, Math.max(1, val)))` with
  `maxAllowed = Math.min(contractMaxPerWallet, contractMaxPerWallet - userMintedCount)`.
The buttons' `disabled` flags only prevent clicks at the boundary; the text
input is never disabled.  Reachability below over-approximates by allowing
every handler at every state. -/

/-- Decrement button `onClick` (App.tsx line 824). -/
def decClick (q : Int) : Int := max 1 (q - 1)

/-- Increment button `onClick` (App.tsx lines 849-859). -/
def incClick (cMPW uM q : Int) : Int :=
  min cMPW (min (cMPW - uM) (q + 1))

/-- `parseInt(e.target.value) || 1`: a failed parse (`NaN`) or a parsed `0`
both yield 1. -/
def jsParseOr1 (p : Option Int) : Int :=
  match p with
  | none => 1
  | some v => if v = 0 then 1 else v

/-- Text input `onChange` (App.tsx lines 838-845). -/
def inputChange (cMPW uM : Int) (p : Option Int) : Int :=
  min (min cMPW (cMPW - uM)) (max 1 (jsParseOr1 p))

/-- The `mintQuantity` values reachable from the initial state
(`useState(1)`, App.tsx line 514) through the three editing handlers, for
fixed `contractMaxPerWallet` and `userMintedCount`. -/
inductive QReach (cMPW uM : Int) : Int → Prop where
  | init : QReach cMPW uM 1
  | dec {q : Int} : QReach cMPW uM q → QReach cMPW uM (decClick q)
  | inc {q : Int} : QReach cMPW uM q → QReach cMPW uM (incClick cMPW uM q)
  | change (p : Option Int) {q : Int} :
      QReach cMPW uM q → QReach cMPW uM (inputChange cMPW uM p)

/-- C9 counterexample: with `contractMaxPerWallet = 2` and
`userMintedCount = 2` (the `userMintedCount ≥ contractMaxPerWallet` case the
claim includes), typing "1" into the quantity input sets
`mintQuantity = min(2, 2 - 2) = 0`, a reachable state violating
`1 ≤ mintQuantity`. -/
theorem claim_C9_counterexample :
    QReach 2 2 0
      ∧ ¬ (1 ≤ (0 : Int) ∧ (0 : Int) ≤ min 2 (2 - 2)) := by
  constructor
  · have h : QReach 2 2 (inputChange 2 2 (some 1)) :=
      QReach.change (some 1) QReach.init
    have he : inputChange 2 2 (some 1) = 0 := by decide
    rwa [he] at h
  · decide

/-- C9 amended: for fixed `contractMaxPerWallet` and `userMintedCount` with
`0 ≤ userMintedCount < contractMaxPerWallet`, every `mintQuantity` reachable
through the three editing handlers satisfies
`1 ≤ mintQuantity ≤ min(contractMaxPerWallet, contractMaxPerWallet - userMintedCount)`;
when `userMintedCount ≥ contractMaxPerWallet` the input handler instead
drives `mintQuantity` to `contractMaxPerWallet - userMintedCount ≤ 0`,
breaking the lower bound. -/
theorem claim_C9_quantity_bounds
    (cMPW uM q : Int) (h0 : 0 ≤ uM) (hlt : uM < cMPW)
    (hr : QReach cMPW uM q) :
    1 ≤ q ∧ q ≤ min cMPW (cMPW - uM) := by
  induction hr with
  | init => omega
  | dec _ ih => unfold decClick; omega
  | inc _ ih => unfold incClick; omega
  | change p _ _ =>
      unfold inputChange
      have : 1 ≤ max 1 (jsParseOr1 p) := le_max_left _ _
      omega

/-- The C9 amended theorem at a concrete state: the initial quantity 1 with
allowance 2 and no prior mints. -/
theorem claim_C9_witness :
    1 ≤ (1 : Int) ∧ (1 : Int) ≤ min 2 (2 - 0) :=
  claim_C9_quantity_bounds 2 0 1 (by decide) (by decide) QReach.init

end ShrampNft
